import Mathlib

/-!
Verification development for the auth0-task-vantage delegated-authentication
tool-dispatch gateway.  JavaScript values are shallowly embedded:
strings handled character-wise become `List Char`, claim values become a
small tagged union, fallible steps become `Option`, and the stateful
downstream bridge becomes an explicit state-transition function folded
over a list of call events.
-/

/-! ## Response Text Normalizer (agent handler, `extractResponseText`)

The source, on a string `content`, computes `text = content.trim()`,
scans unit lengths `len = 1 .. text.length/2` looking for the smallest
prefix whose tiling (`unit.repeat(Math.ceil(L/len)).slice(0, L)`)
reproduces `text`, returning `unit.trim()`; otherwise, if `L > 50` and
the trimmed halves agree, it returns the trimmed first half; otherwise
`text` itself. -/

/-- Whitespace characters removed by JavaScript `String.prototype.trim`
(restricted to the ASCII whitespace actually exercised here). -/
def isJsSpace (c : Char) : Bool :=
  c = ' ' || c = '\t' || c = '\n' || c = '\r'

/-- Drop leading whitespace (the left half of JS `trim`). -/
def trimL (s : List Char) : List Char := s.dropWhile isJsSpace

/-- Drop trailing whitespace (the right half of JS `trim`). -/
def trimR (s : List Char) : List Char := (s.reverse.dropWhile isJsSpace).reverse

/-- JavaScript `String.prototype.trim`: drop leading and trailing whitespace. -/
def jsTrim (s : List Char) : List Char := trimR (trimL s)

/-- JS `unit.repeat(Math.ceil(L / unit.length)).slice(0, L)`:
tile `unit` up to length `L` (the final copy may be cut short). -/
def tile (unit : List Char) (L : Nat) : List Char :=
  (List.flatten (List.replicate ((L + unit.length - 1) / unit.length) unit)).take L

/-- The source's `for (let len = 1; len <= text.length / 2; len++)` scan:
`fuel` counts the remaining candidate lengths, `len` is the current one.
Returns the untrimmed unit `text.slice(0, len)` on a hit. -/
def findUnitAux (T : List Char) (L : Nat) : Nat → Nat → Option (List Char)
  | 0, _ => none
  | fuel + 1, len =>
    if tile (T.take len) L == T then some (T.take len)
    else findUnitAux T L fuel (len + 1)

/-- `extractResponseText` (string case): trim, look for the smallest exact
tiling unit, fall back to the duplicate-halves check, else return unchanged. -/
def extractResponseText (content : List Char) : List Char :=
  let text := jsTrim content
  match findUnitAux text text.length (text.length / 2) 1 with
  | some unit => jsTrim unit
  | none =>
    let half := text.length / 2
    if 50 < text.length ∧ jsTrim (text.take half) = jsTrim (text.drop half)
    then jsTrim (text.take half)
    else text

/-- Ascending run of `count` naturals starting at `lo`. -/
def countUp (lo : Nat) : Nat → List Nat
  | 0 => []
  | n + 1 => lo :: countUp (lo + 1) n

/-- Modelled from the spec's algorithm description (§4.5): given trimmed
text `T` of length `L`, scan candidate unit lengths ascending from 1 to
`L/2`; the smallest `len` whose prefix tiles to `T` exactly wins and
`trim(unit)` is returned; otherwise the `L > 50` trimmed-halves fallback
applies; otherwise `T` is returned unchanged. -/
def specNormalize (T : List Char) : List Char :=
  match (countUp 1 (T.length / 2)).find? (fun len => tile (T.take len) T.length == T) with
  | some len => jsTrim (T.take len)
  | none =>
    if 50 < T.length ∧ jsTrim (T.take (T.length / 2)) = jsTrim (T.drop (T.length / 2))
    then jsTrim (T.take (T.length / 2))
    else T

/-! ## Claims Normalizer (`getAuth`) and Ingress Verifier (`authMiddleware`)

JavaScript claim values are dynamically typed: a claim may be a string,
an array of strings, absent, or something else entirely.  `JVal` is the
tagged union the code's `typeof` / `Array.isArray` branches discriminate. -/

/-- A JSON claim value as discriminated by the source's duck typing. -/
inductive JVal where
  | vstr : String → JVal
  | varr : List String → JVal
  | vother : JVal
deriving DecidableEq

/-- The claim fields `getAuth` reads off the token payload object
(absent fields are `none`, mirroring `undefined`). -/
structure UserClaims where
  sub : Option JVal
  org_id : Option JVal
  scope : Option JVal
  permissions : Option JVal
deriving DecidableEq

/-- The empty object `{}` the source falls back to. -/
def emptyClaims : UserClaims := ⟨none, none, none, none⟩

/-- The verified token stored by the middleware: `token?.payload || token`
means claims are read from `token.payload` when present, else from the
token object itself. -/
structure Stored where
  payload : Option UserClaims
  self : UserClaims
deriving DecidableEq

/-- `const user = token?.payload || token || {}`. -/
def userOf : Option Stored → UserClaims
  | none => emptyClaims
  | some t => t.payload.getD t.self

/-- JS `s.split(' ')` on the character list: cut at every space, keeping
empty pieces (so `"" → [""]`, matching JavaScript). -/
def splitOnSpace : List Char → List (List Char)
  | [] => [[]]
  | c :: rest =>
    let r := splitOnSpace rest
    if c = ' ' then [] :: r
    else match r with
      | h :: t => (c :: h) :: t
      | [] => [[c]]

/-- `scopeValue.split(' ').filter(Boolean)`: split a space-delimited
scope claim and drop empty tokens. -/
def splitScope (s : String) : List String :=
  ((splitOnSpace s.data).map String.mk).filter (fun t => t ≠ "")

/-- `Array.isArray(scopeValue) ? scopeValue : typeof scopeValue === 'string'
? scopeValue.split(' ').filter(Boolean) : []`. -/
def scopeArray (v : Option JVal) : List String :=
  match v with
  | some (JVal.varr l) => l
  | some (JVal.vstr s) => splitScope s
  | _ => []

/-- `Array.isArray(permissionsValue) ? permissionsValue : []`. -/
def permissionsArray (v : Option JVal) : List String :=
  match v with
  | some (JVal.varr l) => l
  | _ => []

/-- `[...new Set(l)]`: deduplicate keeping the first occurrence of each
element, in encounter order. -/
def setDedup (l : List String) : List String :=
  l.foldl (fun acc x => if x ∈ acc then acc else acc ++ [x]) []

/-- The normalized principal produced by `getAuth` (the raw `user` map is
carried alongside in the source and omitted here). -/
structure AuthResult where
  userId : String
  orgId : String
  scopes : List String
deriving DecidableEq

/-- `getAuth`: normalize the stored verified token (if any) into a
`{userId, orgId, scopes}` principal, with `defaultOrg` standing for
`env.API_DEFAULT_ORG`. -/
def getAuth (tok : Option Stored) (defaultOrg : String) : AuthResult :=
  let user := userOf tok
  let userId := match user.sub with
    | some (JVal.vstr s) => if s = "" then "anonymous" else s
    | _ => "anonymous"
  let orgId := match user.org_id with
    | some (JVal.vstr s) => if s = "" then defaultOrg else s
    | _ => defaultOrg
  let scopes := setDedup (scopeArray user.scope ++ permissionsArray user.permissions)
  ⟨userId, orgId, scopes⟩

/-- Outcome of the ingress middleware: a 401 JSON response
`{error: msg}` with a `WWW-Authenticate` challenge header, or `next()`
with the verified payload stored in the request context (`none` when
auth is disabled and nothing is stored). -/
inductive MwOutcome where
  | unauthorized (status : Nat) (errorMsg : String) (challenge : String)
  | proceed (stored : Option Stored)
deriving DecidableEq

/-- `authHeader.replace(/^Bearer\s+/i, '')`: strip a case-insensitive
`Bearer` tag followed by at least one whitespace character (the regex's
greedy `\s+` removes the whole run). -/
def stripBearer (cs : List Char) : List Char :=
  match cs with
  | b :: e :: a :: r :: e2 :: r2 :: rest =>
    if (b.toLower == 'b' && e.toLower == 'e' && a.toLower == 'a' && r.toLower == 'r'
        && e2.toLower == 'e' && r2.toLower == 'r')
       && (match rest with | c :: _ => isJsSpace c | [] => false)
    then rest.dropWhile isJsSpace
    else cs
  | _ => cs

/-- The access token extracted from an optional `authorization` header:
`(context.req.header('authorization') || '').replace(/^Bearer\s+/i, '').trim()`. -/
def extractToken (authHeader : Option String) : String :=
  String.mk (jsTrim (stripBearer ((authHeader.getD "").data)))

/-- The `WWW-Authenticate` challenge header value naming the audience. -/
def challengeFor (audience : String) : String :=
  "Bearer resource=\"" ++ audience ++ "\""

/-- `authMiddleware`: the token verifier `verify` models
`apiClient.verifyAccessToken` (`none` = verification threw). -/
def authMiddleware (authEnabled : Bool) (audience : String)
    (verify : String → Option Stored) (authHeader : Option String) : MwOutcome :=
  if authEnabled = false then MwOutcome.proceed none
  else
    let accessToken := extractToken authHeader
    if accessToken = "" then
      MwOutcome.unauthorized 401 "Unauthorized: Missing access token" (challengeFor audience)
    else
      match verify accessToken with
      | some payload => MwOutcome.proceed (some payload)
      | none =>
        MwOutcome.unauthorized 401 "Unauthorized: Invalid access token" (challengeFor audience)

/-! ## Tool Registry & Dispatcher (`tv_create_task`, `createSession`) -/

/-- `extra` object of a session (`auth.extra || {}`); only the subject
claim is read by the handlers. -/
structure SessionExtra where
  sub : Option String
deriving DecidableEq

/-- The session constructed by `createSession` from transport auth info. -/
structure Session where
  token : String
  extra : SessionExtra
  scopes : List String
  clientId : Option String
deriving DecidableEq

/-- `extra?.authInfo` as received from the transport layer. -/
structure AuthInfo where
  token : String
  extra : Option SessionExtra
  scopes : Option (List String)
  clientId : Option String
deriving DecidableEq

/-- `createSession(extra)`: `auth ? {token, extra: auth.extra || {},
scopes: auth.scopes || [], clientId} : null`. -/
def createSession : Option AuthInfo → Option Session
  | none => none
  | some a => some ⟨a.token, a.extra.getD ⟨none⟩, a.scopes.getD [], a.clientId⟩

/-- JS `a || b` on a possibly-undefined string `a` (empty string is falsy). -/
def jsOrStr : Option String → Option String → Option String
  | some s, b => if s = "" then b else some s
  | none, b => b

/-- JS `a || d` where `d` is a definite string. -/
def jsOrD (a : Option String) (d : String) : String :=
  match a with
  | some s => if s = "" then d else s
  | none => d

/-- Arguments of the `tv_create_task` tool after zod validation
(optional fields are `none` when absent). -/
structure CreateTaskArgs where
  projectId : String
  title : Option String
  name : Option String
  description : Option String
  ownerId : Option String
  dueAt : Option String
  tags : List String
deriving DecidableEq

/-- Payload forwarded to `POST /tasks`; the `name` field reflects the
source's `delete taskData.name` (it is `none` when deleted). -/
structure TaskData where
  projectId : String
  title : Option String
  name : Option String
  description : Option String
  ownerId : String
  dueAt : Option String
  tags : List String
deriving DecidableEq

/-- The body of the `tv_create_task` handler: spread `args`, canonicalize
`title: args.title || args.name`, fill
`ownerId: args.ownerId || session?.extra?.sub || 'default-user'`, then
`delete taskData.name`. -/
def tv_create_task (args : CreateTaskArgs) (session : Option Session) : TaskData :=
  { projectId := args.projectId
    title := jsOrStr args.title args.name
    name := none
    description := args.description
    ownerId := jsOrD args.ownerId (jsOrD (session.bind (fun s => s.extra.sub)) "default-user")
    dueAt := args.dueAt
    tags := args.tags }

/-! ## Downstream Bridge (`createMCPClient`: `callTool`, `cleanup`) -/

/-- JS truthiness of a possibly-null string. -/
def jsTruthyOptStr : Option String → Bool
  | none => false
  | some s => s ≠ ""

/-- Outcome of `JSON.parse` on the first content block's text, as far as
the scope-scraping step can observe it: the parse throws, or the parsed
object lacks a truthy `_metadata.exchangedScopes`, or it carries the
string `s` there. -/
inductive ParseOutcome where
  | notJson
  | noField
  | field (s : String)
deriving DecidableEq

/-- One `callTool` invocation as the bridge state machine observes it:
whether `client.callTool` resolved, the elapsed wall-clock time of the
call, and the parse outcome of `result.content[0].text` (`none` when the
first text block is absent or empty). -/
structure CallEvent where
  ok : Bool
  elapsed : Nat
  text : Option ParseOutcome
deriving DecidableEq

/-- The per-connection mutable metadata of the bridge. -/
structure ConnState where
  exchangedScopes : Option String
  tokenExchangeTime : Option Nat
deriving DecidableEq

/-- Both metadata cells start `null`. -/
def initState : ConnState := ⟨none, none⟩

/-- The scope-scraping step inside `callTool`'s success path:
`if (!exchangedScopes && result?.content?.[0]?.text) { try { parse;
if (parsed?._metadata?.exchangedScopes) assign } catch { ignore } }`. -/
def scopeStep (st : Option String) (txt : Option ParseOutcome) : Option String :=
  if jsTruthyOptStr st then st
  else match txt with
    | some (ParseOutcome.field s) => if s = "" then st else some s
    | _ => st

/-- State transition of one `callTool` invocation.  On resolution the
token-exchange time is recorded if this is the first timed call with a
truthy credential (the recorded value is the elapsed time of the whole
call), and the scope-scraping step runs; on rejection the error is
re-thrown and neither cell changes. -/
def callToolStep (accessToken : Option String) (st : ConnState) (e : CallEvent) : ConnState :=
  let needsTokenExchange := jsTruthyOptStr accessToken && st.tokenExchangeTime.isNone
  if e.ok then
    { exchangedScopes := scopeStep st.exchangedScopes e.text
      tokenExchangeTime := if needsTokenExchange then some e.elapsed else st.tokenExchangeTime }
  else st

/-- The bridge's metadata after a sequence of `callTool` invocations on
one connection. -/
def runCalls (accessToken : Option String) (events : List CallEvent) : ConnState :=
  events.foldl (callToolStep accessToken) initState

/-- The scope disclosure an event contributes, if any: only a resolved
call whose first text block parses to a truthy scope field records. -/
def disclosureOf (e : CallEvent) : Option String :=
  if e.ok then
    match e.text with
    | some (ParseOutcome.field s) => if s = "" then none else some s
    | _ => none
  else none

/-- The first scope disclosure in a sequence of call events. -/
def firstDisclosure (events : List CallEvent) : Option String :=
  events.findSome? disclosureOf

/-- The elapsed time of the first resolved call in a sequence. -/
def firstSuccessDuration (events : List CallEvent) : Option Nat :=
  (events.find? (fun e => e.ok)).map (fun e => e.elapsed)

/-- Observable trace of one `cleanup()` call: which `close()` calls were
attempted and whether an error escaped. -/
structure CleanupTrace where
  clientCloseAttempted : Bool
  transportCloseAttempted : Bool
  raised : Bool
deriving DecidableEq

/-- `cleanup`: `try { if (client) await client.close(); if (transport)
await transport.close(); } catch (error) { log.error(...) }`.  Both
close calls sit in one `try` block: a throwing `client.close()` jumps to
the catch, so `transport.close()` is never attempted; every close error
is swallowed and logged. -/
def cleanup (hasClient hasTransport clientCloseFails _transportCloseFails : Bool) :
    CleanupTrace :=
  if hasClient then
    if clientCloseFails then ⟨true, false, false⟩
    else if hasTransport then ⟨true, true, false⟩
    else ⟨true, false, false⟩
  else if hasTransport then ⟨false, true, false⟩
  else ⟨false, false, false⟩

/-! ## Theorems -/

/-- C1: for every verified token payload whose scope claim is the string
"a b a" and whose permissions claim is the list ["b","c"], the
normalized principal's scope set equals {"a","b","c"}: the scope string
is split on spaces ignoring empty tokens, unioned with the permissions
list, and deduplicated (order not significant). -/
theorem C1_scope_union (tok : Option Stored) (d : String)
    (h1 : (userOf tok).scope = some (JVal.vstr "a b a"))
    (h2 : (userOf tok).permissions = some (JVal.varr ["b", "c"])) :
    (getAuth tok d).scopes.toFinset = ({"a", "b", "c"} : Finset String) ∧
      (getAuth tok d).scopes.Nodup := by
  have hs : (getAuth tok d).scopes
      = setDedup (scopeArray (userOf tok).scope ++ permissionsArray (userOf tok).permissions) :=
    rfl
  rw [hs, h1, h2]
  decide

/-- Witness for C1 at a concrete payload carrying both claim shapes. -/
theorem C1_scope_union_witness :
    (getAuth (some ⟨some ⟨none, none, some (JVal.vstr "a b a"),
        some (JVal.varr ["b", "c"])⟩, emptyClaims⟩) "org").scopes.toFinset
      = ({"a", "b", "c"} : Finset String) ∧
    (getAuth (some ⟨some ⟨none, none, some (JVal.vstr "a b a"),
        some (JVal.varr ["b", "c"])⟩, emptyClaims⟩) "org").scopes.Nodup :=
  C1_scope_union _ "org" rfl rfl

/-- C9: a verified payload whose subject claim is not a non-empty string
normalizes to `userId = "anonymous"`; and with no verified payload at
all, the principal is `{userId: "anonymous", orgId: default, scopes: []}`. -/
theorem C9_anonymous_defaults :
    (∀ (tok : Option Stored) (d : String),
        (∀ s : String, (userOf tok).sub = some (JVal.vstr s) → s = "") →
        (getAuth tok d).userId = "anonymous")
    ∧ ∀ d : String, getAuth none d = ⟨"anonymous", d, []⟩ := by
  constructor
  · intro tok d h
    have hu : (getAuth tok d).userId
        = (match (userOf tok).sub with
           | some (JVal.vstr s) => if s = "" then "anonymous" else s
           | _ => "anonymous") := rfl
    rw [hu]
    cases hsub : (userOf tok).sub with
    | none => rfl
    | some v =>
      cases v with
      | vstr s =>
        have hse := h s hsub
        simp [hse]
      | varr l => rfl
      | vother => rfl
  · intro d; rfl

/-- Witness for C9 at the anonymous (no stored token) context. -/
theorem C9_anonymous_defaults_witness :
    (getAuth none "default-org").userId = "anonymous" ∧
      getAuth none "default-org" = ⟨"anonymous", "default-org", []⟩ :=
  ⟨C9_anonymous_defaults.1 none "default-org" (fun _ h => Option.noConfusion h),
   C9_anonymous_defaults.2 "default-org"⟩

/-- C8: a `tv_create_task` invocation carrying the `name` alias and no
`title` forwards `title` equal to the alias's value, and the forwarded
payload never contains a `name` field. -/
theorem C8_alias_canonicalized :
    (∀ (args : CreateTaskArgs) (session : Option Session) (x : String),
        args.title = none → args.name = some x → x ≠ "" →
        (tv_create_task args session).title = some x)
    ∧ ∀ (args : CreateTaskArgs) (session : Option Session),
        (tv_create_task args session).name = none := by
  constructor
  · intro args session x ht hn hx
    have : (tv_create_task args session).title = jsOrStr args.title args.name := rfl
    rw [this, ht, hn]
    simp [jsOrStr, hx]
  · intro args session; rfl

/-- Witness for C8 at `{projectId: "p1", name: "X"}` with a null session. -/
theorem C8_alias_canonicalized_witness :
    (tv_create_task ⟨"p1", none, some "X", none, none, none, []⟩ none).title = some "X" ∧
      (tv_create_task ⟨"p1", none, some "X", none, none, none, []⟩ none).name = none :=
  ⟨C8_alias_canonicalized.1 _ none "X" rfl rfl (by decide),
   C8_alias_canonicalized.2 _ none⟩

/-- C10: when the arguments supply no `ownerId` and the caller's session
carries no (truthy) subject claim — including the null-session case —
the forwarded `ownerId` is the literal "default-user", a sentinel
distinct from the "anonymous" sentinel used for the principal's userId. -/
theorem C10_default_owner :
    (∀ (args : CreateTaskArgs) (ai : Option AuthInfo),
        args.ownerId = none →
        (∀ s : String, (createSession ai).bind (fun ss => ss.extra.sub) = some s → s = "") →
        (tv_create_task args (createSession ai)).ownerId = "default-user")
    ∧ "default-user" ≠ "anonymous" := by
  constructor
  · intro args ai ho h
    have hw : (tv_create_task args (createSession ai)).ownerId
        = jsOrD args.ownerId
            (jsOrD ((createSession ai).bind (fun s => s.extra.sub)) "default-user") := rfl
    rw [hw, ho]
    cases hsub : (createSession ai).bind (fun s => s.extra.sub) with
    | none => rfl
    | some s =>
      have hse := h s hsub
      simp [jsOrD, hse]
  · decide

/-- Witness for C10 at a null session and ownerless arguments. -/
theorem C10_default_owner_witness :
    (tv_create_task ⟨"p1", some "t", none, none, none, none, []⟩ (createSession none)).ownerId
      = "default-user" :=
  C10_default_owner.1 _ none rfl (fun _ h => Option.noConfusion h)

/-- C5 counterexample: with both client and transport present and a
throwing `client.close()`, the transport close is never attempted — the
two close attempts are not independent, refuting the claim that a
failure of either close never prevents the other. -/
theorem C5_cleanup_counterexample :
    (cleanup true true true false).clientCloseAttempted = true
    ∧ (cleanup true true true false).transportCloseAttempted = false
    ∧ (cleanup true true true false).raised = false := by decide

/-- C5 amended: `cleanup` swallows (never raises) close errors and the
client close is always attempted first, so a transport-close failure
never prevents the client close; but a client-close failure skips the
transport close attempt (the closes are sequential in one try block,
not independent). -/
theorem C5_cleanup_amended :
    (∀ hc ht cf tf, (cleanup hc ht cf tf).raised = false)
    ∧ (∀ hc ht cf tf, hc = true → (cleanup hc ht cf tf).clientCloseAttempted = true)
    ∧ (∀ ht tf, (cleanup true ht false tf).transportCloseAttempted = ht)
    ∧ (∀ ht cf tf, cf = true → (cleanup true ht cf tf).transportCloseAttempted = false) := by
  refine ⟨?_, ?_, ?_, ?_⟩ <;> decide

/-- Witness for C5 amended at concrete flag settings. -/
theorem C5_cleanup_amended_witness :
    (cleanup true false true true).clientCloseAttempted = true
    ∧ (cleanup true true true true).transportCloseAttempted = false :=
  ⟨C5_cleanup_amended.2.1 true false true true rfl,
   C5_cleanup_amended.2.2.2 true true true rfl⟩

/-- C4 counterexample: the missing-token 401 carries the message
"Unauthorized: Missing access token", not the claimed
"Unauthorized: missing token". -/
theorem C4_missing_token_counterexample :
    authMiddleware true "api-audience" (fun _ => none) none
      = MwOutcome.unauthorized 401 "Unauthorized: Missing access token"
          "Bearer resource=\"api-audience\""
    ∧ "Unauthorized: Missing access token" ≠ "Unauthorized: missing token" := by
  constructor
  · decide
  · decide

/-- C4 amended: with auth enabled, a request without a bearer token gets
a 401 JSON error "Unauthorized: Missing access token" with a challenge
naming the audience, independent of the verifier (no verification is
attempted); a request whose token fails verification gets a 401
"Unauthorized: Invalid access token" with the same challenge; and the
middleware only proceeds downstream with a successfully verified
payload. -/
theorem C4_unauthorized_amended :
    (∀ (aud : String) (verify : String → Option Stored) (header : Option String),
        extractToken header = "" →
        authMiddleware true aud verify header
          = MwOutcome.unauthorized 401 "Unauthorized: Missing access token" (challengeFor aud)
        ∧ ∀ verify2 : String → Option Stored,
            authMiddleware true aud verify2 header = authMiddleware true aud verify header)
    ∧ (∀ (aud : String) (verify : String → Option Stored) (header : Option String),
        extractToken header ≠ "" → verify (extractToken header) = none →
        authMiddleware true aud verify header
          = MwOutcome.unauthorized 401 "Unauthorized: Invalid access token" (challengeFor aud))
    ∧ ∀ (aud : String) (verify : String → Option Stored) (header : Option String)
        (st : Option Stored),
        authMiddleware true aud verify header = MwOutcome.proceed st →
        ∃ p, verify (extractToken header) = some p ∧ st = some p := by
  refine ⟨?_, ?_, ?_⟩
  · intro aud verify header h
    constructor
    · simp [authMiddleware, h]
    · intro verify2
      simp [authMiddleware, h]
  · intro aud verify header h hv
    simp [authMiddleware, h, hv]
  · intro aud verify header st hp
    by_cases h : extractToken header = ""
    · simp [authMiddleware, h] at hp
    · cases hv : verify (extractToken header) with
      | none => simp [authMiddleware, h, hv] at hp
      | some p =>
        simp [authMiddleware, h, hv] at hp
        exact ⟨p, rfl, hp.symm⟩

/-- Once the scope cell holds a truthy value, no event changes it. -/
lemma foldl_scopes_keep (tok : Option String) :
    ∀ (events : List CallEvent) (st : ConnState),
      jsTruthyOptStr st.exchangedScopes = true →
      (events.foldl (callToolStep tok) st).exchangedScopes = st.exchangedScopes := by
  intro events
  induction events with
  | nil => intro st _; rfl
  | cons e es ih =>
    intro st h
    have hstep : (callToolStep tok st e).exchangedScopes = st.exchangedScopes := by
      by_cases he : e.ok
      · simp [callToolStep, he, scopeStep, h]
      · simp [callToolStep, he]
    calc ((e :: es).foldl (callToolStep tok) st).exchangedScopes
        = (es.foldl (callToolStep tok) (callToolStep tok st e)).exchangedScopes := rfl
      _ = (callToolStep tok st e).exchangedScopes := ih _ (by rw [hstep]; exact h)
      _ = st.exchangedScopes := hstep

/-- From a state with no recorded scopes, the fold records exactly the
first disclosure in the event sequence. -/
lemma foldl_scopes_first (tok : Option String) :
    ∀ (events : List CallEvent) (st : ConnState),
      st.exchangedScopes = none →
      (events.foldl (callToolStep tok) st).exchangedScopes = firstDisclosure events := by
  intro events
  induction events with
  | nil => intro st h; exact h
  | cons e es ih =>
    intro st h
    cases hd : disclosureOf e with
    | some d =>
      have he : e.ok = true := by
        by_contra hne
        simp [disclosureOf, hne] at hd
      have hdne : d ≠ "" := by
        simp only [disclosureOf, he, if_true] at hd
        cases ht : e.text with
        | none => rw [ht] at hd; simp at hd
        | some p =>
          rw [ht] at hd
          cases p with
          | notJson => simp at hd
          | noField => simp at hd
          | field s =>
            by_cases hs : s = "" <;> simp [hs] at hd
            rw [← hd]; exact hs
      have hstep : (callToolStep tok st e).exchangedScopes = some d := by
        simp only [disclosureOf, he, if_true] at hd
        cases ht : e.text with
        | none => rw [ht] at hd; simp at hd
        | some p =>
          rw [ht] at hd
          cases p with
          | notJson => simp at hd
          | noField => simp at hd
          | field s =>
            by_cases hs : s = ""
            · simp [hs] at hd
            · simp only [hs, if_neg, ite_false] at hd
              simp [callToolStep, he, ht, scopeStep, h, jsTruthyOptStr, hs, hd]
      have : ((e :: es).foldl (callToolStep tok) st).exchangedScopes
          = (callToolStep tok st e).exchangedScopes := by
        have := foldl_scopes_keep tok es (callToolStep tok st e)
          (by rw [hstep]; simp [jsTruthyOptStr, hdne])
        exact this
      rw [this, hstep]
      simp [firstDisclosure, List.findSome?, hd]
    | none =>
      have hstep : (callToolStep tok st e).exchangedScopes = none := by
        by_cases he : e.ok
        · simp only [disclosureOf, he, if_true] at hd
          cases ht : e.text with
          | none => simp [callToolStep, he, ht, scopeStep, h, jsTruthyOptStr]
          | some p =>
            rw [ht] at hd
            cases p with
            | notJson => simp [callToolStep, he, ht, scopeStep, h, jsTruthyOptStr]
            | noField => simp [callToolStep, he, ht, scopeStep, h, jsTruthyOptStr]
            | field s =>
              by_cases hs : s = ""
              · simp [callToolStep, he, ht, scopeStep, h, jsTruthyOptStr, hs]
              · simp [hs] at hd
        · simp [callToolStep, he, h]
      calc ((e :: es).foldl (callToolStep tok) st).exchangedScopes
          = (es.foldl (callToolStep tok) (callToolStep tok st e)).exchangedScopes := rfl
        _ = firstDisclosure es := ih _ hstep
        _ = firstDisclosure (e :: es) := by
            simp [firstDisclosure, List.findSome?, hd]

/-- C6: the disclosed-scope metadata is recorded at most once per
connection, first occurrence winning: non-JSON or field-less payloads
are a no-op, a truthy recorded value is never overwritten, and over any
sequence of calls the final cell equals the first disclosure. -/
theorem C6_scope_disclosure_once :
    (∀ st : Option String,
        scopeStep st (some ParseOutcome.notJson) = st
        ∧ scopeStep st (some ParseOutcome.noField) = st
        ∧ scopeStep st none = st)
    ∧ (∀ (s : String) (x : Option ParseOutcome), s ≠ "" → scopeStep (some s) x = some s)
    ∧ ∀ (tok : Option String) (events : List CallEvent),
        (runCalls tok events).exchangedScopes = firstDisclosure events := by
  refine ⟨?_, ?_, ?_⟩
  · intro st
    refine ⟨?_, ?_, ?_⟩ <;> · by_cases h : jsTruthyOptStr st = true <;> simp [scopeStep, h]
  · intro s x hs
    simp [scopeStep, jsTruthyOptStr, hs]
  · intro tok events
    exact foldl_scopes_first tok events initState rfl

/-- Witness for C6: a recorded value survives a later disclosure. -/
theorem C6_scope_disclosure_once_witness :
    scopeStep (some "read:tasks") (some (ParseOutcome.field "write:tasks"))
      = some "read:tasks" :=
  C6_scope_disclosure_once.2.1 "read:tasks" (some (ParseOutcome.field "write:tasks"))
    (by decide)

/-- C7 counterexample: with a credential present, a failed first call
records nothing, and the latency is then recorded on the second
invocation — not on the first as the claim states. -/
theorem C7_exchange_latency_counterexample :
    (runCalls (some "tok") [⟨false, 5, none⟩]).tokenExchangeTime = none
    ∧ (runCalls (some "tok") [⟨false, 5, none⟩, ⟨true, 7, none⟩]).tokenExchangeTime
        = some 7 := by
  constructor <;> decide

/-- Once the latency cell holds a value, no later call changes it. -/
lemma callToolStep_time_keep (tok : Option String) (st : ConnState) (e : CallEvent)
    (t : Nat) (h : st.tokenExchangeTime = some t) :
    (callToolStep tok st e).tokenExchangeTime = some t := by
  by_cases he : e.ok
  · simp [callToolStep, he, h]
  · simp [callToolStep, he, h]

/-- Folded version of `callToolStep_time_keep`. -/
lemma foldl_time_keep (tok : Option String) :
    ∀ (events : List CallEvent) (st : ConnState) (t : Nat),
      st.tokenExchangeTime = some t →
      (events.foldl (callToolStep tok) st).tokenExchangeTime = some t := by
  intro events
  induction events with
  | nil => intro st t h; exact h
  | cons e es ih =>
    intro st t h
    exact ih _ t (callToolStep_time_keep tok st e t h)

/-- Without a truthy credential the latency cell stays null forever. -/
lemma foldl_time_no_token (tok : Option String) (htok : jsTruthyOptStr tok = false) :
    ∀ (events : List CallEvent) (st : ConnState),
      st.tokenExchangeTime = none →
      (events.foldl (callToolStep tok) st).tokenExchangeTime = none := by
  intro events
  induction events with
  | nil => intro st h; exact h
  | cons e es ih =>
    intro st h
    refine ih _ ?_
    by_cases he : e.ok
    · simp [callToolStep, he, htok, h]
    · simp [callToolStep, he, h]

/-- With a truthy credential, from an empty cell the fold records the
elapsed time of the first resolved call. -/
lemma foldl_time_first (tok : Option String) (htok : jsTruthyOptStr tok = true) :
    ∀ (events : List CallEvent) (st : ConnState),
      st.tokenExchangeTime = none →
      (events.foldl (callToolStep tok) st).tokenExchangeTime
        = firstSuccessDuration events := by
  intro events
  induction events with
  | nil => intro st h; exact h
  | cons e es ih =>
    intro st h
    by_cases he : e.ok
    · have hstep : (callToolStep tok st e).tokenExchangeTime = some e.elapsed := by
        simp [callToolStep, he, htok, h]
      calc ((e :: es).foldl (callToolStep tok) st).tokenExchangeTime
          = (es.foldl (callToolStep tok) (callToolStep tok st e)).tokenExchangeTime := rfl
        _ = some e.elapsed := foldl_time_keep tok es _ e.elapsed hstep
        _ = firstSuccessDuration (e :: es) := by
            simp [firstSuccessDuration, List.find?, he]
    · have hstep : (callToolStep tok st e).tokenExchangeTime = none := by
        simp [callToolStep, he, h]
      calc ((e :: es).foldl (callToolStep tok) st).tokenExchangeTime
          = (es.foldl (callToolStep tok) (callToolStep tok st e)).tokenExchangeTime := rfl
        _ = firstSuccessDuration es := ih _ hstep
        _ = firstSuccessDuration (e :: es) := by
            simp [firstSuccessDuration, List.find?, he]

/-- C7 amended: the token-exchange latency is recorded exactly once per
connection, on the first *successful* `callTool` invocation made with a
truthy credential (a failed call records nothing, so the recording can
land on a later invocation); the recorded value is the elapsed time of
that whole call; once recorded it is never overwritten; and without a
truthy credential (absent or empty) it stays null on every call. -/
theorem C7_exchange_latency_amended :
    (∀ events : List CallEvent, (runCalls none events).tokenExchangeTime = none)
    ∧ (∀ events : List CallEvent, (runCalls (some "") events).tokenExchangeTime = none)
    ∧ (∀ (tok : String) (events : List CallEvent), tok ≠ "" →
        (runCalls (some tok) events).tokenExchangeTime = firstSuccessDuration events)
    ∧ ∀ (tok : Option String) (st : ConnState) (e : CallEvent) (t : Nat),
        st.tokenExchangeTime = some t → (callToolStep tok st e).tokenExchangeTime = some t := by
  refine ⟨?_, ?_, ?_, ?_⟩
  · intro events
    exact foldl_time_no_token none rfl events initState rfl
  · intro events
    exact foldl_time_no_token (some "") (by simp [jsTruthyOptStr]) events initState rfl
  · intro tok events htok
    exact foldl_time_first (some tok) (by simp [jsTruthyOptStr, htok]) events initState rfl
  · exact callToolStep_time_keep

/-- Witness for C7 amended at a one-call trace and a pre-recorded cell. -/
theorem C7_exchange_latency_amended_witness :
    (runCalls (some "tok") [⟨true, 7, none⟩]).tokenExchangeTime
      = firstSuccessDuration [⟨true, 7, none⟩]
    ∧ (callToolStep (some "tok") ⟨none, some 3⟩ ⟨true, 9, none⟩).tokenExchangeTime
        = some 3 :=
  ⟨C7_exchange_latency_amended.2.2.1 "tok" [⟨true, 7, none⟩] (by decide),
   C7_exchange_latency_amended.2.2.2 (some "tok") ⟨none, some 3⟩ ⟨true, 9, none⟩ 3 rfl⟩

/-- `dropWhile` is idempotent: its result starts (if at all) with a
character failing the predicate. -/
lemma dropWhile_idem (p : Char → Bool) (l : List Char) :
    (l.dropWhile p).dropWhile p = l.dropWhile p := by
  have h := List.head?_dropWhile_not p l
  cases hd : l.dropWhile p with
  | nil => rfl
  | cons a t =>
    rw [hd] at h
    simp only [List.head?_cons] at h
    exact List.dropWhile_cons_of_neg (by simp [h])

/-- A list fixed by `dropWhile` passes that property to its prefixes. -/
lemma dropWhile_eq_self_of_pref {p : Char → Bool} :
    ∀ {x y : List Char}, y <+: x → x.dropWhile p = x → y.dropWhile p = y := by
  intro x y hyx hx
  cases y with
  | nil => rfl
  | cons a t =>
    obtain ⟨r, hr⟩ := hyx
    have ha : p a = false := by
      by_contra hpa
      have hpa' : p a = true := by
        cases hv : p a with
        | false => exact absurd hv hpa
        | true => rfl
      rw [← hr, List.cons_append, List.dropWhile_cons_of_pos hpa'] at hx
      have hle : ((t ++ r).dropWhile p).length ≤ (t ++ r).length :=
        (List.dropWhile_sublist p).length_le
      rw [hx] at hle
      simp at hle
    exact List.dropWhile_cons_of_neg (by simp [ha])

/-- `trimR` shortens a list to one of its prefixes. -/
lemma trimR_pref (s : List Char) : trimR s <+: s := by
  unfold trimR
  conv_rhs => rw [← List.reverse_reverse s]
  exact List.reverse_prefix.mpr (List.dropWhile_suffix isJsSpace)

/-- `trimR` is idempotent. -/
lemma trimR_trimR (s : List Char) : trimR (trimR s) = trimR s := by
  unfold trimR
  rw [List.reverse_reverse, dropWhile_idem]

/-- `trimL` is idempotent. -/
lemma trimL_idem (s : List Char) : trimL (trimL s) = trimL s :=
  dropWhile_idem isJsSpace s

/-- `trimL` fixes the right-trim of anything it already fixes. -/
lemma trimL_trimR_of {s : List Char} (h : trimL s = s) : trimL (trimR s) = trimR s :=
  dropWhile_eq_self_of_pref (trimR_pref s) h

/-- `jsTrim` is idempotent. -/
lemma jsTrim_idem (s : List Char) : jsTrim (jsTrim s) = jsTrim s := by
  unfold jsTrim
  rw [trimL_trimR_of (trimL_idem s)]
  exact trimR_trimR _

/-- A `jsTrim`-fixed list is already `trimL`-fixed. -/
lemma trimL_eq_self_of_jsTrim {s : List Char} (h : jsTrim s = s) : trimL s = s := by
  have hpref : s <+: trimL s := by
    conv_lhs => rw [← h]
    exact trimR_pref (trimL s)
  have hlen2 : (trimL s).length ≤ s.length := (List.dropWhile_sublist isJsSpace).length_le
  exact (hpref.eq_of_length (Nat.le_antisymm hpref.length_le hlen2)).symm

/-- Trimming any prefix of a trimmed list yields a prefix of it. -/
lemma jsTrim_take_pref {s : List Char} (h : jsTrim s = s) (n : Nat) :
    jsTrim (s.take n) <+: s := by
  have h1 : trimL (s.take n) = s.take n :=
    dropWhile_eq_self_of_pref (List.take_prefix n s) (trimL_eq_self_of_jsTrim h)
  have h2 : jsTrim (s.take n) = trimR (s.take n) := by
    unfold jsTrim; rw [h1]
  rw [h2]
  exact (trimR_pref _).trans (List.take_prefix n s)

/-- The fuel-indexed scan agrees with an ascending `find?` over the
candidate lengths, returning the unit `T.take len` of the first hit. -/
lemma findUnitAux_eq_find (T : List Char) (L : Nat) :
    ∀ (fuel len : Nat),
      findUnitAux T L fuel len
        = ((countUp len fuel).find? (fun k => tile (T.take k) L == T)).map
            (fun k => T.take k) := by
  intro fuel
  induction fuel with
  | zero => intro len; rfl
  | succ n ih =>
    intro len
    rw [show countUp len (n + 1) = len :: countUp (len + 1) n from rfl]
    by_cases h : (tile (T.take len) L == T) = true
    · have hcons : List.find? (fun k => tile (T.take k) L == T) (len :: countUp (len + 1) n)
          = some len := by
        simp [List.find?, h]
      rw [hcons]
      show (if tile (T.take len) L == T then some (T.take len)
            else findUnitAux T L n (len + 1)) = _
      rw [if_pos h]
      rfl
    · have hcons : List.find? (fun k => tile (T.take k) L == T) (len :: countUp (len + 1) n)
          = List.find? (fun k => tile (T.take k) L == T) (countUp (len + 1) n) := by
        simp [List.find?, h]
      rw [hcons]
      show (if tile (T.take len) L == T then some (T.take len)
            else findUnitAux T L n (len + 1)) = _
      rw [if_neg (by simp [h])]
      exact ih (len + 1)

/-- Unfolding equation for `extractResponseText`. -/
lemma extract_eq (content : List Char) :
    extractResponseText content
      = (match findUnitAux (jsTrim content) (jsTrim content).length
            ((jsTrim content).length / 2) 1 with
         | some u => jsTrim u
         | none =>
           if 50 < (jsTrim content).length
               ∧ jsTrim ((jsTrim content).take ((jsTrim content).length / 2))
                 = jsTrim ((jsTrim content).drop ((jsTrim content).length / 2))
           then jsTrim ((jsTrim content).take ((jsTrim content).length / 2))
           else jsTrim content) := rfl

/-- The normalizer's output is always trimmed. -/
lemma extract_trimmed (c : List Char) :
    jsTrim (extractResponseText c) = extractResponseText c := by
  rw [extract_eq c]
  cases hf : findUnitAux (jsTrim c) (jsTrim c).length ((jsTrim c).length / 2) 1 with
  | some u => exact jsTrim_idem u
  | none =>
    by_cases hc : 50 < (jsTrim c).length
        ∧ jsTrim ((jsTrim c).take ((jsTrim c).length / 2))
          = jsTrim ((jsTrim c).drop ((jsTrim c).length / 2))
    · simp only [if_pos hc]
      exact jsTrim_idem _
    · simp only [if_neg hc]
      exact jsTrim_idem c

/-- On a trimmed input, the normalizer returns a prefix of the input. -/
lemma extract_pref_of_trimmed (T : List Char) (h : jsTrim T = T) :
    extractResponseText T <+: T := by
  rw [extract_eq T, h, findUnitAux_eq_find T T.length (T.length / 2) 1]
  cases hfind : (countUp 1 (T.length / 2)).find? (fun k => tile (T.take k) T.length == T) with
  | some len =>
    show jsTrim (T.take len) <+: T
    exact jsTrim_take_pref h len
  | none =>
    show (if 50 < T.length
          ∧ jsTrim (T.take (T.length / 2)) = jsTrim (T.drop (T.length / 2))
          then jsTrim (T.take (T.length / 2)) else T) <+: T
    by_cases hc : 50 < T.length
        ∧ jsTrim (T.take (T.length / 2)) = jsTrim (T.drop (T.length / 2))
    · rw [if_pos hc]
      exact jsTrim_take_pref h _
    · rw [if_neg hc]

/-- C2 counterexample: the normalizer is not idempotent.  On
"ababaababa" the smallest tiling unit is "ababa" (len 5, a fractional
tile of len 2 does not reproduce the text), but "ababa" itself tiles by
"ab", so a second application shrinks the output further. -/
theorem C2_idempotence_counterexample :
    extractResponseText (extractResponseText ("ababaababa".data))
      ≠ extractResponseText ("ababaababa".data) := by decide

/-- C2 amended: the normalizer is not idempotent in general; a second
application yields a (possibly strictly shorter) prefix of the first
application's output. -/
theorem C2_idempotence_amended (content : List Char) :
    extractResponseText (extractResponseText content) <+: extractResponseText content :=
  extract_pref_of_trimmed _ (extract_trimmed content)

/-- C3: the normalizer implements exactly the spec's algorithm — trim,
ascending scan for the smallest exactly-tiling unit length (returning
the trimmed unit), then the `L > 50` duplicate-halves fallback, else the
trimmed text unchanged — and maps "Hello worldHello world" to
"Hello world", "AAA" to "A", and "Hello" to "Hello". -/
theorem C3_normalizer_algorithm :
    (∀ content : List Char, extractResponseText content = specNormalize (jsTrim content))
    ∧ extractResponseText ("Hello worldHello world".data) = "Hello world".data
    ∧ extractResponseText ("AAA".data) = "A".data
    ∧ extractResponseText ("Hello".data) = "Hello".data := by
  refine ⟨?_, by decide, by decide, by decide⟩
  intro content
  rw [extract_eq content,
    findUnitAux_eq_find (jsTrim content) (jsTrim content).length ((jsTrim content).length / 2) 1]
  show _ = specNormalize (jsTrim content)
  unfold specNormalize
  cases (countUp 1 ((jsTrim content).length / 2)).find?
      (fun k => tile ((jsTrim content).take k) (jsTrim content).length == jsTrim content) with
  | none => rfl
  | some len => rfl

/-- Witness for C4 amended: a request with no Authorization header, and
one with a bearer token that fails verification. -/
theorem C4_unauthorized_amended_witness :
    authMiddleware true "api-audience" (fun _ => none) none
      = MwOutcome.unauthorized 401 "Unauthorized: Missing access token"
          (challengeFor "api-audience")
    ∧ authMiddleware true "api-audience" (fun _ => none) (some "Bearer abc")
      = MwOutcome.unauthorized 401 "Unauthorized: Invalid access token"
          (challengeFor "api-audience") :=
  ⟨(C4_unauthorized_amended.1 "api-audience" (fun _ => none) none (by decide)).1,
   C4_unauthorized_amended.2.1 "api-audience" (fun _ => none) (some "Bearer abc")
     (by decide) rfl⟩
